import Mathlib

/-!
KMR_dxlP1 Reader: the read-and-convert pipeline.

Shallow embedding of `source/KMR_dxlP1_reader.cpp` (class `KMR::dxlP1::Reader`).

Conventions of the embedding:

* `uint8_t` / `uint32_t` values are `Nat` reduced explicitly modulo `2^8` / `2^32`;
  `int` and `int32_t` values are `Int`, the conversion `uint32_t → int32_t` is the
  twos-complement one (`toInt32`).
* `float` values are IEEE 754 binary32 values (`F32`): every conversion, difference and
  product is rounded to the nearest `float`, ties to even, one operation at a time
  (no wider intermediate precision); `F32.toRat` gives the real value of a `float`.
* `exit(1)` is the outcome `Outcome.exited`; a normal return is `Outcome.returned`.
* The Dynamixel SDK (`GroupBulkRead`, `PacketHandler`) and the `Hal` registry are
  external collaborators: their answers are the fields of `Bus` and `Hal`.
* The diagnostic stream (`cout` / `stderr`) is the list `State.log`; the lists
  `State.txLog` and `State.busReads` record the bus traffic the Reader issues.
-/

set_option autoImplicit false

namespace KMR.dxlP1

/-! ## Constants -/

/-- Line 19: `#define MAX_POS 28672`. -/
def MAX_POS : Nat := 28672

/-- Line 20: `#define UINT_OVERFLOW 65535`. -/
def UINT_OVERFLOW : Nat := 65535

/-- The communication result `COMM_SUCCESS` of the SDK. -/
def COMM_SUCCESS : Int := 0

/-- The communication result `COMM_TX_FAIL` of the SDK. -/
def COMM_TX_FAIL : Int := -1001

/-! ## Machine integers -/

/-- Conversion `(uint8_t) x` of an `int`. -/
def toUint8 (x : Int) : Nat := (x % 256).toNat

/-- Conversion of a `uint32_t` bit pattern to `int32_t` (wrapping modulo `2^32`). -/
def toInt32 (x : Nat) : Int :=
  if x % 2 ^ 32 < 2 ^ 31 then ((x % 2 ^ 32 : Nat) : Int) else ((x % 2 ^ 32 : Nat) : Int) - 2 ^ 32

/-- Subtraction `a - b` on `uint32_t` (wraps modulo `2^32`). -/
def subU32 (a b : Nat) : Nat := (a % 2 ^ 32 + 2 ^ 32 - b % 2 ^ 32) % 2 ^ 32

/-! ## IEEE 754 binary32 (`float`) -/

/-- A `float`: a finite value given by its sign bit, biased exponent field (0 to 254)
and fraction field (below `2^23`), an infinity, or a NaN (all NaNs are identified). -/
inductive F32 where
  | finite (sign : Bool) (exp : Nat) (frac : Nat)
  | inf (sign : Bool)
  | nan
deriving DecidableEq, Repr

/-- The integer significand of a finite value: the hidden bit is set unless the
exponent field is 0 (zero and subnormals). -/
def F32.mant (exp frac : Nat) : Nat :=
  if exp = 0 then frac else 2 ^ 23 + frac

/-- The power of two that scales the integer significand. -/
def F32.expo (exp : Nat) : Int :=
  if exp = 0 then -149 else (exp : Int) - 150

/-- The position of the highest set bit of `m` (0 for `m < 2`), by repeated halving;
`fuel` bounds the number of halvings and `m` itself is always enough. -/
def F32.log2 : Nat → Nat → Nat
  | 0, _ => 0
  | fuel + 1, m => if m < 2 then 0 else F32.log2 fuel (m / 2) + 1

/-- The value `(-1)^sign * m * 2^e` rounded to the nearest `float`, ties to even
(the default rounding mode), with gradual underflow and overflow to infinity. -/
def F32.round (sign : Bool) (m : Nat) (e : Int) : F32 :=
  if m = 0 then F32.finite sign 0 0
  else
    let top : Int := e + (F32.log2 m m : Int)
    let q : Int := max (top - 23) (-149)
    let n : Nat :=
      if q ≤ e then m * 2 ^ (e - q).toNat
      else
        let shift := (q - e).toNat
        let n0 := m / 2 ^ shift
        let rem := m % 2 ^ shift
        let half := 2 ^ (shift - 1)
        if rem > half ∨ (rem = half ∧ n0 % 2 = 1) then n0 + 1 else n0
    if n < 2 ^ 23 then F32.finite sign 0 n
    else
      let n1 := if n = 2 ^ 24 then 2 ^ 23 else n
      let q1 := if n = 2 ^ 24 then q + 1 else q
      let biased := (q1 + 150).toNat
      if biased ≥ 255 then F32.inf sign else F32.finite sign biased (n1 - 2 ^ 23)

/-- Conversion of an `int` (here `int` and `int32_t`) to `float`. -/
def F32.ofInt (i : Int) : F32 :=
  F32.round (decide (i < 0)) i.natAbs 0

/-- Conversion of a `uint32_t` to `float`. -/
def F32.ofNat (n : Nat) : F32 :=
  F32.round false n 0

/-- Unary minus. -/
def F32.neg : F32 → F32
  | F32.finite s e f => F32.finite (!s) e f
  | F32.inf s => F32.inf (!s)
  | F32.nan => F32.nan

/-- The `float` product `x * y`. -/
def F32.mul : F32 → F32 → F32
  | F32.nan, _ => F32.nan
  | _, F32.nan => F32.nan
  | F32.inf s, F32.inf t => F32.inf (xor s t)
  | F32.inf s, F32.finite t e f => if F32.mant e f = 0 then F32.nan else F32.inf (xor s t)
  | F32.finite s e f, F32.inf t => if F32.mant e f = 0 then F32.nan else F32.inf (xor s t)
  | F32.finite s e f, F32.finite t e2 f2 =>
    F32.round (xor s t) (F32.mant e f * F32.mant e2 f2) (F32.expo e + F32.expo e2)

/-- The `float` sum `x + y`; an exact zero sum is `+0` unless both operands are
negative. -/
def F32.add : F32 → F32 → F32
  | F32.nan, _ => F32.nan
  | _, F32.nan => F32.nan
  | F32.inf s, F32.inf t => if s = t then F32.inf s else F32.nan
  | F32.inf s, F32.finite _ _ _ => F32.inf s
  | F32.finite _ _ _, F32.inf t => F32.inf t
  | F32.finite s e f, F32.finite t e2 f2 =>
    let ex : Int := min (F32.expo e) (F32.expo e2)
    let a : Int := (if s then -1 else 1) *
      ((F32.mant e f * 2 ^ (F32.expo e - ex).toNat : Nat) : Int)
    let b : Int := (if t then -1 else 1) *
      ((F32.mant e2 f2 * 2 ^ (F32.expo e2 - ex).toNat : Nat) : Int)
    if a + b = 0 then F32.finite (s && t) 0 0
    else F32.round (decide (a + b < 0)) (a + b).natAbs ex

/-- The `float` difference `x - y`. -/
def F32.sub (x y : F32) : F32 :=
  F32.add x (F32.neg y)

/-- The real value of a finite `float` (0 for an infinity or a NaN). -/
def F32.toRat : F32 → ℚ
  | F32.finite s e f =>
    (if s then -1 else 1) *
      (if e = 0 then (f : ℚ) / 2 ^ 149
        else if 150 ≤ e then ((2 ^ 23 + f : Nat) : ℚ) * 2 ^ (e - 150)
        else ((2 ^ 23 + f : Nat) : ℚ) / 2 ^ (150 - e))
  | F32.inf _ => 0
  | F32.nan => 0

/-! ## Data model -/

/-- Modelled from the spec: the `Fields` enumeration is declared in a header that is
not part of the source file; the four position-family fields are named, every other
enumerator is `other n`. -/
inductive Fields where
  | GOAL_POS
  | PRESENT_POS
  | CW_ANGLE_LIMIT
  | CCW_ANGLE_LIMIT
  | other (n : Nat)
deriving DecidableEq, Repr

/-- One entry of `Hal::m_motors_list`. -/
structure Motor where
  scanned_model : Int
deriving DecidableEq, Repr

/-- The `Hal` registry, as far as the Reader consults it. -/
structure Hal where
  /-- The `unit` member of `getControlParametersFromID(id, field)`. -/
  unit : Int → Fields → F32
  /-- The method `getMotorsListIndexFromID(id)`. -/
  getMotorsListIndexFromID : Int → Nat
  /-- The array `m_motors_list`. -/
  m_motors_list : Nat → Motor

/-- Messages written to the diagnostic stream. -/
inductive Event where
  /-- Line 109: "Adding parameters failed for ID = ". -/
  | addParamFailed (id : Int)
  /-- Lines 117 and 167: `getTxRxResult(dxl_comm_result)`. -/
  | txRxResult (code : Int)
  /-- Line 161: "ERROR! Unknown byte size to read". -/
  | unknownByteSize
  /-- Line 218: "[ID:%03d] groupSyncRead getdata failed". -/
  | getdataFailed (id : Int)
  /-- Line 286: "This model is unknown, cannot calculate angle from position!". -/
  | unknownModel
deriving DecidableEq, Repr

/-- One registration in the pending batch of the `GroupBulkRead` object. -/
structure Param where
  id : Nat
  address : Nat
  length : Nat
deriving DecidableEq, Repr

/-- One single-shot read issued on the bus by `read`. -/
structure BusRead where
  width : Nat
  id : Nat
  address : Nat
deriving DecidableEq, Repr

/-- Answer of the bus to a single-shot read. -/
structure Reply where
  value : Nat
  error : Nat
  comm : Int
deriving DecidableEq, Repr

/-- Answers of the SDK and of the bus during one call. -/
structure Bus where
  /-- Result of `GroupBulkRead::addParam` given the pending batch and the new entry. -/
  addParam : List Param → Param → Bool
  /-- Result of `GroupBulkRead::txRxPacket` for the pending batch. -/
  txRxPacket : List Param → Int
  /-- Result of `GroupBulkRead::isAvailable(id, address, length)`. -/
  isAvailable : Nat → Nat → Nat → Bool
  /-- Result of `GroupBulkRead::getData(id, address, length)`. -/
  getData : Nat → Nat → Nat → Nat
  /-- Answer to the single-shot read of iteration `i` of `read`, of the given width,
  for the given identity and address. -/
  readTxRx : Nat → Nat → Nat → Nat → Reply

/-- The members of a `Reader` fixed at construction. -/
structure Reader where
  m_hal : Hal
  m_ids : List Int
  m_field : Fields
  m_data_address : Nat
  m_data_byte_size : Nat

/-- The mutable part: the output store, the pending batch of `m_groupBulkReader`,
and the traces of what the Reader wrote and sent. -/
structure State where
  m_dataFromMotor : List F32
  id_list : List Param
  log : List Event
  txLog : List (List Param)
  busReads : List BusRead

/-- How a call ends: it returns a value, or the process is terminated by `exit`. -/
inductive Outcome (α : Type) where
  | returned (value : α) (s : State)
  | exited (code : Nat) (s : State)

/-! ## Value decoding -/

/-- Lines 268-291: `Reader::position2Angle`. The result is the returned `float`
together with what was printed. In `(float) position - model_max_position/2` the
quotient is an `int` division, converted to `float` for the subtraction. -/
def Reader.position2Angle (r : Reader) (position : Int) (id : Int) (units : F32) :
    F32 × List Event :=
  let motor_idx := r.m_hal.getMotorsListIndexFromID id
  let model := (r.m_hal.m_motors_list motor_idx).scanned_model
  if model = 1030 ∨ model = 1000 ∨ model = 310 then
    let model_max_position : Int := 4095
    (F32.mul (F32.sub (F32.ofInt position) (F32.ofInt (model_max_position / 2))) units, [])
  else if model = 12 then
    let model_max_position : Int := 1023
    (F32.mul (F32.sub (F32.ofInt position) (F32.ofInt (model_max_position / 2))) units, [])
  else
    (F32.ofInt 1, [Event.unknownModel])

/-- Lines 190-192 and 249-251, followed by the conversion to the `int32_t` parameter
of `position2Angle`: `if (paramData > MAX_POS) paramData = paramData - UINT_OVERFLOW;`
on a `uint32_t`. -/
def correctedPosition (paramData : Nat) : Int :=
  toInt32 (if paramData % 2 ^ 32 > MAX_POS then subU32 paramData UINT_OVERFLOW
    else paramData % 2 ^ 32)

/-- Lines 184-193 of `read` and 243-252 of `populateOutputMatrix` (the same statements
in both): transform the parametrized value into SI units. -/
def Reader.toSI (r : Reader) (paramData : Nat) (id : Int) (units : F32) :
    F32 × List Event :=
  if r.m_field ≠ Fields.GOAL_POS ∧ r.m_field ≠ Fields.PRESENT_POS ∧
      r.m_field ≠ Fields.CW_ANGLE_LIMIT ∧ r.m_field ≠ Fields.CCW_ANGLE_LIMIT then
    (F32.mul (F32.ofNat (paramData % 2 ^ 32)) units, [])
  else
    r.position2Angle (correctedPosition paramData) id units

/-! ## Batched read -/

/-- Lines 76-79: `Reader::clearParam` (`GroupBulkRead::clearParam` empties the batch). -/
def Reader.clearParam (_r : Reader) (s : State) : State :=
  { s with id_list := [] }

/-- Lines 86-90: `Reader::addParam`. When the SDK accepts the registration the entry
`(id, m_data_address, m_data_byte_size)` is appended to the pending batch. -/
def Reader.addParam (r : Reader) (bus : Bus) (id : Nat) (s : State) : Bool × State :=
  let p : Param := ⟨id, r.m_data_address, r.m_data_byte_size⟩
  if bus.addParam s.id_list p then (true, { s with id_list := s.id_list ++ [p] })
  else (false, s)

/-- Lines 105-112: the loop of `syncRead` adding the input motors to the reading list. -/
def Reader.addParams (r : Reader) (bus : Bus) : List Int → State → Outcome Unit
  | [], s => Outcome.returned () s
  | idsi :: rest, s =>
    let id := toUint8 idsi
    let res := r.addParam bus id s
    if res.1 ≠ true then
      Outcome.exited 1 { res.2 with log := res.2.log ++ [Event.addParamFailed idsi] }
    else
      Reader.addParams r bus rest res.2

/-- Lines 207-222: `Reader::checkReadSuccessful`. -/
def Reader.checkReadSuccessful (r : Reader) (bus : Bus) (ids : List Int) (s : State) : State :=
  ids.foldl (fun s idsi =>
    let dxl_getdata_result := bus.isAvailable (toUint8 idsi) r.m_data_address r.m_data_byte_size
    if dxl_getdata_result ≠ true then
      { s with log := s.log ++ [Event.getdataFailed idsi] }
    else s) s

/-- Modelled from the spec: `Reader::getMotorIndexFromID` is defined outside the source
file; it gives the position of the motor in the construction-time identity list
(the list length when the identity is not managed). -/
def Reader.getMotorIndexFromID (r : Reader) (id : Int) : Nat :=
  r.m_ids.indexOf id

/-- Lines 237-256: one iteration of the loop of `populateOutputMatrix`. A write
outside the store leaves it as it is. -/
def Reader.populateOne (r : Reader) (bus : Bus) (s : State) (id : Int) : State :=
  let units := r.m_hal.unit id r.m_field
  let paramData := bus.getData (toUint8 id) r.m_data_address r.m_data_byte_size % 2 ^ 32
  let res := r.toSI paramData id units
  let idx := r.getMotorIndexFromID id
  { s with m_dataFromMotor := s.m_dataFromMotor.set idx res.1, log := s.log ++ res.2 }

/-- Lines 229-258: `Reader::populateOutputMatrix`. -/
def Reader.populateOutputMatrix (r : Reader) (bus : Bus) (ids : List Int) (s : State) :
    State :=
  ids.foldl (r.populateOne bus) s

/-- Lines 115-119: transmit the batch, log a communication failure and go on. -/
def Reader.transmit (_r : Reader) (bus : Bus) (s : State) : State :=
  let dxl_comm_result := bus.txRxPacket s.id_list
  let s1 := { s with txLog := s.txLog ++ [s.id_list] }
  if dxl_comm_result ≠ COMM_SUCCESS then
    { s1 with log := s1.log ++ [Event.txRxResult dxl_comm_result] }
  else s1

/-- Lines 96-123: `Reader::syncRead`. -/
def Reader.syncRead (r : Reader) (bus : Bus) (ids : List Int) (s : State) : Outcome Unit :=
  match r.addParams bus ids (r.clearParam s) with
  | Outcome.exited code s1 => Outcome.exited code s1
  | Outcome.returned _ s1 =>
    let s2 := r.transmit bus s1
    let s3 := r.checkReadSuccessful bus ids s2
    Outcome.returned () (r.populateOutputMatrix bus ids s3)

/-! ## Single reads -/

/-- Lines 142-163: select the 1/2/4-byte wire primitive for iteration `i`; `none` is
the branch of the unknown byte size. The value is the one stored in `paramOutput32`. -/
def Reader.singleRead (r : Reader) (bus : Bus) (i : Nat) (idsi : Int) : Option (Int × Nat) :=
  if r.m_data_byte_size = 1 then
    let reply := bus.readTxRx i 1 (toUint8 idsi) r.m_data_address
    some (reply.comm, reply.value % 2 ^ 8)
  else if r.m_data_byte_size = 2 then
    let reply := bus.readTxRx i 2 (toUint8 idsi) r.m_data_address
    some (reply.comm, reply.value % 2 ^ 16)
  else if r.m_data_byte_size = 4 then
    let reply := bus.readTxRx i 4 (toUint8 idsi) r.m_data_address
    some (reply.comm, reply.value % 2 ^ 32)
  else
    none

/-- Lines 140-199: the loop of `read` from iteration `i` on, over the identities that
remain; the value returned is the flag together with the `output` of the caller. A write
outside `output` leaves it as it is. -/
def Reader.readLoop (r : Reader) (bus : Bus) :
    List Int → Nat → List F32 → State → Outcome (Int × List F32)
  | [], _, output, s => Outcome.returned (1, output) s
  | idsi :: rest, i, output, s =>
    match r.singleRead bus i idsi with
    | none => Outcome.exited 1 { s with log := s.log ++ [Event.unknownByteSize] }
    | some (dxl_comm_result, paramOutput32) =>
      let s1 : State := { s with busReads :=
        s.busReads ++ [BusRead.mk r.m_data_byte_size (toUint8 idsi) r.m_data_address] }
      if dxl_comm_result ≠ COMM_SUCCESS then
        Outcome.returned (0, output)
          { s1 with log := s1.log ++ [Event.txRxResult dxl_comm_result] }
      else
        let units := r.m_hal.unit idsi r.m_field
        let res := r.toSI paramOutput32 idsi units
        Reader.readLoop r bus rest (i + 1) (output.set i res.1)
          { s1 with log := s1.log ++ res.2 }

/-- Lines 132-200: `Reader::read`. -/
def Reader.read (r : Reader) (bus : Bus) (ids : List Int) (output : List F32) (s : State) :
    Outcome (Int × List F32) :=
  r.readLoop bus ids 0 output s

/-! ## Concrete configurations used to evaluate the code -/

/-- The `float` nearest to 0.001, that is 8589935 / 2^33. -/
def f32_0_001 : F32 := F32.finite false 117 201327

/-- The `float` nearest to 0.229, that is 15367930 / 2^26. -/
def f32_0_229 : F32 := F32.finite false 124 6979322

/-- The `float` nearest to 0.00325, that is 13958644 / 2^32. -/
def f32_0_00325 : F32 := F32.finite false 118 5570036

/-- The `float` 1. -/
def f32_1 : F32 := F32.finite false 127 0

/-- A registry in which identity 1 is a model 1030, identity 2 a model 12
(AX-12A), identity 3 a model 310, every other identity has the unknown model 999.
Position fields have the unit 0.001f, the field `other 1` the unit 1 and every other
field the unit 0.229f. -/
def demoHal : Hal where
  unit := fun _ f =>
    if f = Fields.GOAL_POS ∨ f = Fields.PRESENT_POS ∨ f = Fields.CW_ANGLE_LIMIT ∨
      f = Fields.CCW_ANGLE_LIMIT then f32_0_001
    else if f = Fields.other 1 then f32_1 else f32_0_229
  getMotorsListIndexFromID := fun id => id.toNat
  m_motors_list := fun n =>
    if n = 1 then ⟨1030⟩ else if n = 2 then ⟨12⟩ else if n = 3 then ⟨310⟩ else ⟨999⟩

/-- A Reader over the demo registry for the given identities, field and byte width. -/
def demoReader (ids : List Int) (field : Fields) (size : Nat) : Reader where
  m_hal := demoHal
  m_ids := ids
  m_field := field
  m_data_address := 36
  m_data_byte_size := size

/-- An SDK that accepts a registration unless the identity is already in the batch. -/
def sdkAddParam (batch : List Param) (p : Param) : Bool :=
  !(batch.map Param.id).contains p.id

/-- A bus on which every transaction succeeds and every register holds `value`. -/
def constBus (value : Nat) : Bus where
  addParam := sdkAddParam
  txRxPacket := fun _ => COMM_SUCCESS
  isAvailable := fun _ _ _ => true
  getData := fun _ _ _ => value
  readTxRx := fun _ _ _ _ => ⟨value, 0, COMM_SUCCESS⟩

/-- A fresh state with the given output store. -/
def initState (store : List F32) : State where
  m_dataFromMotor := store
  id_list := []
  log := []
  txLog := []
  busReads := []

/-! ## Auxiliary descriptions of the batched read -/

/-- The registration `syncRead` makes for the input identity `idsi`. -/
def Reader.param (r : Reader) (idsi : Int) : Param :=
  ⟨toUint8 idsi, r.m_data_address, r.m_data_byte_size⟩

/-- Every registration of the identities succeeds when they are added in order to
the given pending batch. -/
def Reader.registrationsSucceed (r : Reader) (bus : Bus) : List Int → List Param → Bool
  | [], _ => true
  | idsi :: rest, batch =>
    bus.addParam batch (r.param idsi) &&
      Reader.registrationsSucceed r bus rest (batch ++ [r.param idsi])

/-- What `checkReadSuccessful` prints for the identities. -/
def Reader.checkEvents (r : Reader) (bus : Bus) : List Int → List Event
  | [] => []
  | idsi :: rest =>
    (if bus.isAvailable (toUint8 idsi) r.m_data_address r.m_data_byte_size ≠ true then
      [Event.getdataFailed idsi] else []) ++ Reader.checkEvents r bus rest

/-- The value `populateOutputMatrix` computes for the identity, with what is printed. -/
def Reader.decoded (r : Reader) (bus : Bus) (id : Int) : F32 × List Event :=
  r.toSI (bus.getData (toUint8 id) r.m_data_address r.m_data_byte_size % 2 ^ 32) id
    (r.m_hal.unit id r.m_field)

/-- The output store after `populateOutputMatrix`. -/
def Reader.populateStore (r : Reader) (bus : Bus) : List Int → List F32 → List F32
  | [], store => store
  | id :: rest, store =>
    Reader.populateStore r bus rest (store.set (r.getMotorIndexFromID id) (r.decoded bus id).1)

/-- What `populateOutputMatrix` prints. -/
def Reader.populateEvents (r : Reader) (bus : Bus) : List Int → List Event
  | [] => []
  | id :: rest => (r.decoded bus id).2 ++ Reader.populateEvents r bus rest

/-- What the transmit step prints. -/
def Reader.transmitEvents (bus : Bus) (batch : List Param) : List Event :=
  if bus.txRxPacket batch ≠ COMM_SUCCESS then [Event.txRxResult (bus.txRxPacket batch)] else []

/-- The same bus with the transaction result replaced by `code`. -/
def Bus.withTxRx (bus : Bus) (code : Int) : Bus :=
  { bus with txRxPacket := fun _ => code }

/-- A sequence of `syncRead` calls, each with the answers of the bus during it. -/
def Reader.syncReads (r : Reader) : List (Bus × List Int) → State → Outcome Unit
  | [], s => Outcome.returned () s
  | call :: rest, s =>
    match r.syncRead call.1 call.2 s with
    | Outcome.exited code s1 => Outcome.exited code s1
    | Outcome.returned _ s1 => Reader.syncReads r rest s1


/-! ## Auxiliary descriptions of the single reads -/

/-- The answer of the bus to the single read that iteration `i` of `read` issues for
the identity `idsi`. -/
def Reader.replyAt (r : Reader) (bus : Bus) (i : Nat) (idsi : Int) : Reply :=
  bus.readTxRx i r.m_data_byte_size (toUint8 idsi) r.m_data_address

/-- The raw register value of that answer, in the unsigned range of the byte width. -/
def Reader.rawAt (r : Reader) (bus : Bus) (i : Nat) (idsi : Int) : Nat :=
  (r.replyAt bus i idsi).value % 2 ^ (8 * r.m_data_byte_size)

/-- The bus read `read` issues for the identity `idsi`. -/
def Reader.busRead (r : Reader) (idsi : Int) : BusRead :=
  ⟨r.m_data_byte_size, toUint8 idsi, r.m_data_address⟩

/-! ## Concrete buses used to evaluate the code -/

/-- A bus whose single reads answer 150, except the read of iteration 1, which
reports the communication failure -3001 (`COMM_RX_TIMEOUT`). -/
def failingBus : Bus where
  addParam := sdkAddParam
  txRxPacket := fun _ => COMM_SUCCESS
  isAvailable := fun _ _ _ => true
  getData := fun _ _ _ => 150
  readTxRx := fun i _ _ _ => if i = 1 then ⟨0, 0, -3001⟩ else ⟨150, 0, COMM_SUCCESS⟩

/-- A bus on which the batched transaction times out and no identity has data:
`isAvailable` is false and `getData` gives 0, as the SDK does for absent data. -/
def silentBus : Bus where
  addParam := sdkAddParam
  txRxPacket := fun _ => -3001
  isAvailable := fun _ _ _ => false
  getData := fun _ _ _ => 0
  readTxRx := fun _ _ _ _ => ⟨0, 0, -3001⟩
/-! ## Arithmetic of the overflow correction -/

theorem toInt32_of_lt (x : Nat) (h : x < 2 ^ 31) : toInt32 x = (x : Int) := by
  unfold toInt32
  have h1 : x % 2 ^ 32 = x := Nat.mod_eq_of_lt (by omega)
  rw [h1, if_pos h]

theorem toInt32_of_ge (x : Nat) (h : 2 ^ 31 ≤ x) (h2 : x < 2 ^ 32) :
    toInt32 x = (x : Int) - 2 ^ 32 := by
  unfold toInt32
  have h1 : x % 2 ^ 32 = x := Nat.mod_eq_of_lt h2
  rw [h1, if_neg (by omega)]

/-- The corrected position on the three ranges of a 32-bit raw value. -/
theorem correctedPosition_cases (raw : Nat) (h : raw < 2 ^ 32) :
    correctedPosition raw =
      if raw ≤ 28672 then (raw : Int)
      else if raw < 2 ^ 31 + 65535 then (raw : Int) - 65535
      else (raw : Int) - 65535 - 2 ^ 32 := by
  unfold correctedPosition subU32 MAX_POS UINT_OVERFLOW
  have h1 : raw % 2 ^ 32 = raw := Nat.mod_eq_of_lt h
  rw [h1]
  by_cases hle : raw ≤ 28672
  · rw [if_neg (by omega), if_pos hle]
    exact toInt32_of_lt raw (by omega)
  · rw [if_pos (by omega), if_neg hle]
    have h65 : 65535 % 2 ^ 32 = 65535 := by norm_num
    rw [h65]
    by_cases hlt : raw < 65535
    · have e : (raw + 2 ^ 32 - 65535) % 2 ^ 32 = raw + 2 ^ 32 - 65535 :=
        Nat.mod_eq_of_lt (by omega)
      rw [e, if_pos (by omega), toInt32_of_ge _ (by omega) (by omega)]
      omega
    · have e : (raw + 2 ^ 32 - 65535) % 2 ^ 32 = raw - 65535 := by
        have : raw + 2 ^ 32 - 65535 = (raw - 65535) + 2 ^ 32 := by omega
        rw [this, Nat.add_mod_right]
        exact Nat.mod_eq_of_lt (by omega)
      rw [e]
      by_cases hhi : raw < 2 ^ 31 + 65535
      · rw [if_pos hhi, toInt32_of_lt _ (by omega)]
        omega
      · rw [if_neg hhi, toInt32_of_ge _ (by omega) (by omega)]
        omega

theorem correctedPosition_word (raw : Nat) (h : raw ≤ 65535) :
    correctedPosition raw = if raw ≤ 28672 then (raw : Int) else (raw : Int) - 65535 := by
  rw [correctedPosition_cases raw (by omega)]
  by_cases hle : raw ≤ 28672
  · rw [if_pos hle, if_pos hle]
  · rw [if_neg hle, if_neg hle, if_pos (by omega)]

/-- A position-family field takes the second branch of the conversion. -/
theorem toSI_position (r : Reader)
    (hf : r.m_field = Fields.GOAL_POS ∨ r.m_field = Fields.PRESENT_POS ∨
      r.m_field = Fields.CW_ANGLE_LIMIT ∨ r.m_field = Fields.CCW_ANGLE_LIMIT)
    (paramData : Nat) (id : Int) (units : F32) :
    r.toSI paramData id units = r.position2Angle (correctedPosition paramData) id units := by
  unfold Reader.toSI
  rw [if_neg]
  rintro ⟨h1, h2, h3, h4⟩
  rcases hf with h | h | h | h
  · exact h1 h
  · exact h2 h
  · exact h3 h
  · exact h4 h

/-- Every other field takes the first branch: the raw value times the unit. -/
theorem toSI_linear (r : Reader)
    (hf : r.m_field ≠ Fields.GOAL_POS ∧ r.m_field ≠ Fields.PRESENT_POS ∧
      r.m_field ≠ Fields.CW_ANGLE_LIMIT ∧ r.m_field ≠ Fields.CCW_ANGLE_LIMIT)
    (paramData : Nat) (id : Int) (units : F32) :
    r.toSI paramData id units = (F32.mul (F32.ofNat (paramData % 2 ^ 32)) units, []) := by
  unfold Reader.toSI
  rw [if_pos hf]

/-! ## The float rounding -/

/-- The fuel `m` is enough: `F32.log2 m m` is the position of the highest set bit. -/
theorem F32_log2_spec :
    ∀ (fuel m : Nat), m ≤ fuel → 0 < m →
      2 ^ F32.log2 fuel m ≤ m ∧ m < 2 ^ (F32.log2 fuel m + 1) := by
  intro fuel
  induction fuel with
  | zero => intro m hle hpos; omega
  | succ k ih =>
    intro m hle hpos
    by_cases h : m < 2
    · have hm : m = 1 := by omega
      subst hm
      simp [F32.log2]
    · rw [F32.log2, if_neg h]
      obtain ⟨hlo, hhi⟩ := ih (m / 2) (by omega) (by omega)
      rw [pow_succ] at hhi ⊢
      constructor
      · omega
      · rw [pow_succ]
        omega

/-! ## The float arithmetic on some values -/

/-- Conversions to float round above 2^24: 16777217 becomes 16777216 and 4294967295
becomes 4294967296, while 2047 and 2048 are exact. -/
theorem F32_conversions :
    F32.ofInt 16777217 = F32.finite false 151 0 ∧
    F32.toRat (F32.finite false 151 0) = 16777216 ∧
    F32.ofNat 4294967295 = F32.finite false 159 0 ∧
    F32.toRat (F32.finite false 159 0) = 4294967296 ∧
    F32.toRat (F32.ofInt 2047) = 2047 ∧
    F32.toRat (F32.ofInt 2048) = 2048 ∧
    F32.toRat (F32.ofInt (-35535)) = -35535 := by
  have h1 : F32.ofInt 2047 = F32.finite false 137 8380416 := by decide
  have h2 : F32.ofInt 2048 = F32.finite false 138 0 := by decide
  have h3 : F32.ofInt (-35535) = F32.finite true 142 708352 := by decide
  refine ⟨by decide, by norm_num [F32.toRat], by decide, by norm_num [F32.toRat], ?_, ?_, ?_⟩
  · rw [h1]; norm_num [F32.toRat]
  · rw [h2]; norm_num [F32.toRat]
  · rw [h3]; norm_num [F32.toRat]

/-- The position 16777217 with unit 1 on the model 1030 motor: the position is rounded to
16777216 by the conversion and the angle is the float 16775169. -/
theorem position2Angle_large_position :
    (demoReader [1] Fields.PRESENT_POS 4).position2Angle 16777217 1 f32_1 =
      (F32.finite false 150 8386561, []) ∧
    F32.toRat (F32.finite false 150 8386561) = 16775169 := by
  exact ⟨by decide, by norm_num [F32.toRat]⟩

/-! ## Claims on the value decoder -/

/-- C1, as stated, fails: for the model 1030 motor, the position 2048 and the unit
0.001f the code returns 0.001f, whose value 8589935 / 2^33 is not (2048 - 4095/2) * unit,
neither with the value of the float unit nor with the real 1/1000. -/
theorem C1_exact_half_refuted :
    ((demoReader [1] Fields.PRESENT_POS 2).position2Angle 2048 1 f32_0_001).1 = f32_0_001 ∧
    F32.toRat f32_0_001 = 8589935 / 8589934592 ∧
    F32.toRat ((demoReader [1] Fields.PRESENT_POS 2).position2Angle 2048 1 f32_0_001).1
      ≠ ((2048 : ℚ) - 4095 / 2) * F32.toRat f32_0_001 ∧
    F32.toRat ((demoReader [1] Fields.PRESENT_POS 2).position2Angle 2048 1 f32_0_001).1
      ≠ ((2048 : ℚ) - 4095 / 2) * (1 / 1000) := by
  have h : ((demoReader [1] Fields.PRESENT_POS 2).position2Angle 2048 1 f32_0_001).1 =
      f32_0_001 := by decide
  have hv : F32.toRat f32_0_001 = 8589935 / 8589934592 := by
    norm_num [F32.toRat, f32_0_001]
  refine ⟨h, hv, ?_, ?_⟩
  · rw [h, hv]; norm_num
  · rw [h, hv]; norm_num

/-- C1, amended: for a recognised model the angle is the float product of the float
difference (float) p - 2047 and u for the models 1030, 1000 and 310, and of
(float) p - 511 and u for the model 12, the half being the truncating integer division
of the source and each operation being rounded to float; nothing is printed. -/
theorem C1_position2Angle_recognised (r : Reader) (p id : Int) (u : F32) :
    ((r.m_hal.m_motors_list (r.m_hal.getMotorsListIndexFromID id)).scanned_model = 1030 ∨
      (r.m_hal.m_motors_list (r.m_hal.getMotorsListIndexFromID id)).scanned_model = 1000 ∨
      (r.m_hal.m_motors_list (r.m_hal.getMotorsListIndexFromID id)).scanned_model = 310 →
        r.position2Angle p id u =
          (F32.mul (F32.sub (F32.ofInt p) (F32.ofInt 2047)) u, [])) ∧
    ((r.m_hal.m_motors_list (r.m_hal.getMotorsListIndexFromID id)).scanned_model = 12 →
        r.position2Angle p id u =
          (F32.mul (F32.sub (F32.ofInt p) (F32.ofInt 511)) u, [])) := by
  constructor
  · intro h
    unfold Reader.position2Angle
    simp only [if_pos h]
    rfl
  · intro h
    unfold Reader.position2Angle
    simp only [h]
    rfl

/-- Witness of C1 amended: position 2048 on the model 1030 motor with unit 0.001f gives
(2048 - 2047) * 0.001f = 0.001f, and position 500 on the model 12 motor with unit
0.00325f gives (500 - 511) * 0.00325f, the float of value -1199571 / 2^25. -/
theorem C1_position2Angle_recognised_witness :
    (demoReader [1, 2] Fields.PRESENT_POS 2).position2Angle 2048 1 f32_0_001
      = (F32.mul (F32.sub (F32.ofInt 2048) (F32.ofInt 2047)) f32_0_001, []) ∧
    F32.mul (F32.sub (F32.ofInt 2048) (F32.ofInt 2047)) f32_0_001 = f32_0_001 ∧
    (demoReader [1, 2] Fields.PRESENT_POS 2).position2Angle 500 2 f32_0_00325
      = (F32.mul (F32.sub (F32.ofInt 500) (F32.ofInt 511)) f32_0_00325, []) ∧
    F32.mul (F32.sub (F32.ofInt 500) (F32.ofInt 511)) f32_0_00325
      = F32.finite true 122 1207960 ∧
    F32.toRat (F32.finite true 122 1207960) = -1199571 / 33554432 :=
  ⟨(C1_position2Angle_recognised (demoReader [1, 2] Fields.PRESENT_POS 2) 2048 1 f32_0_001).1
      (Or.inl (by decide)),
    by decide,
    (C1_position2Angle_recognised (demoReader [1, 2] Fields.PRESENT_POS 2) 500 2
      f32_0_00325).2 (by decide),
    by decide,
    by norm_num [F32.toRat]⟩

/-- C2, as stated, fails on the upper part of the 4-byte range: the raw value
4294967295 is handed to position2Angle as -65536, not as 4294967295 - 65535. -/
theorem C2_four_byte_refuted :
    correctedPosition 4294967295 = -65536 ∧
    correctedPosition 4294967295 ≠ (4294967295 : Int) - 65535 := by
  have h := correctedPosition_cases 4294967295 (by norm_num)
  norm_num at h
  rw [h]
  constructor <;> norm_num

/-- C2, amended: for a position-family field and a raw value below 2^31 + 65535
(every 1-byte and 2-byte register value is), the conversion shared by read and
populateOutputMatrix hands to position2Angle the position r when r <= 28672 and
r - 65535 when r > 28672. -/
theorem C2_corrected_position (r : Reader) (raw : Nat) (id : Int) (units : F32)
    (hf : r.m_field = Fields.GOAL_POS ∨ r.m_field = Fields.PRESENT_POS ∨
      r.m_field = Fields.CW_ANGLE_LIMIT ∨ r.m_field = Fields.CCW_ANGLE_LIMIT)
    (hraw : raw < 2 ^ 31 + 65535) :
    correctedPosition raw = (if raw ≤ 28672 then (raw : Int) else (raw : Int) - 65535) ∧
    r.toSI raw id units =
      r.position2Angle (if raw ≤ 28672 then (raw : Int) else (raw : Int) - 65535) id units := by
  have hc : correctedPosition raw =
      (if raw ≤ 28672 then (raw : Int) else (raw : Int) - 65535) := by
    rw [correctedPosition_cases raw (by omega)]
    by_cases hle : raw ≤ 28672
    · rw [if_pos hle, if_pos hle]
    · rw [if_neg hle, if_neg hle, if_pos hraw]
  exact ⟨hc, by rw [toSI_position r hf, hc]⟩

/-- Witness of C2 amended: raw 30000 of a present-position register is handed over
as 30000 - 65535. -/
theorem C2_corrected_position_witness :
    correctedPosition 30000 = (if 30000 ≤ 28672 then ((30000 : Nat) : Int)
      else ((30000 : Nat) : Int) - 65535) ∧
    (demoReader [1] Fields.PRESENT_POS 2).toSI 30000 1 f32_0_001 =
      (demoReader [1] Fields.PRESENT_POS 2).position2Angle
        (if 30000 ≤ 28672 then ((30000 : Nat) : Int) else ((30000 : Nat) : Int) - 65535)
        1 f32_0_001 :=
  C2_corrected_position (demoReader [1] Fields.PRESENT_POS 2) 30000 1 f32_0_001
    (Or.inr (Or.inl rfl)) (by norm_num)

/-- C10: on 2-byte raw values the overflow correction of the code is injective except
for the pair 0 and 65535, which both give 0, and its values are exactly the integers
of the interval [-36862, 28672]. -/
theorem C10_correction_two_byte :
    (∀ r1 r2 : Nat, r1 ≤ 65535 → r2 ≤ 65535 → correctedPosition r1 = correctedPosition r2 →
      r1 = r2 ∨ (r1 = 0 ∧ r2 = 65535) ∨ (r1 = 65535 ∧ r2 = 0)) ∧
    correctedPosition 0 = 0 ∧ correctedPosition 65535 = 0 ∧
    (∀ r : Nat, r ≤ 65535 → -36862 ≤ correctedPosition r ∧ correctedPosition r ≤ 28672) ∧
    (∀ v : Int, -36862 ≤ v → v ≤ 28672 → ∃ r : Nat, r ≤ 65535 ∧ correctedPosition r = v) := by
  refine ⟨?_, ?_, ?_, ?_, ?_⟩
  · intro r1 r2 h1 h2 h
    rw [correctedPosition_word r1 h1, correctedPosition_word r2 h2] at h
    split_ifs at h <;> omega
  · rw [correctedPosition_word 0 (by norm_num)]; norm_num
  · rw [correctedPosition_word 65535 (by norm_num)]; norm_num
  · intro r h
    rw [correctedPosition_word r h]
    split_ifs <;> omega
  · intro v hlo hhi
    by_cases hv : 0 ≤ v
    · refine ⟨v.toNat, by omega, ?_⟩
      rw [correctedPosition_word _ (by omega), if_pos (by omega)]
      omega
    · refine ⟨(v + 65535).toNat, by omega, ?_⟩
      rw [correctedPosition_word _ (by omega), if_neg (by omega)]
      omega

/-- Witness of C10: the colliding pair 0 and 65535, and the two ends of the range. -/
theorem C10_correction_two_byte_witness :
    ((0 : Nat) = 65535 ∨ ((0 : Nat) = 0 ∧ (65535 : Nat) = 65535) ∨
      ((0 : Nat) = 65535 ∧ (65535 : Nat) = 0)) ∧
    (-36862 ≤ correctedPosition 28673 ∧ correctedPosition 28673 ≤ 28672) ∧
    (∃ r : Nat, r ≤ 65535 ∧ correctedPosition r = -36862) :=
  ⟨C10_correction_two_byte.1 0 65535 (by norm_num) (by norm_num)
      (by rw [C10_correction_two_byte.2.1, C10_correction_two_byte.2.2.1]),
    C10_correction_two_byte.2.2.2.1 28673 (by norm_num),
    C10_correction_two_byte.2.2.2.2 (-36862) (by norm_num) (by norm_num)⟩

/-! ## The batched read, step by step -/

theorem addParams_of_succeed (r : Reader) (bus : Bus) :
    ∀ (ids : List Int) (s : State), r.registrationsSucceed bus ids s.id_list = true →
      r.addParams bus ids s =
        Outcome.returned () { s with id_list := s.id_list ++ ids.map r.param } := by
  intro ids
  induction ids with
  | nil => intro s _; simp [Reader.addParams]
  | cons a rest ih =>
    intro s h
    simp only [Reader.registrationsSucceed, Bool.and_eq_true] at h
    have h1 : bus.addParam s.id_list ⟨toUint8 a, r.m_data_address, r.m_data_byte_size⟩ = true :=
      h.1
    simp only [Reader.addParams, Reader.addParam, h1, if_true, ne_eq, not_true_eq_false,
      if_false]
    rw [ih _ h.2]
    simp [Reader.param, List.append_assoc]

theorem checkReadSuccessful_eq (r : Reader) (bus : Bus) :
    ∀ (ids : List Int) (s : State),
      r.checkReadSuccessful bus ids s = { s with log := s.log ++ r.checkEvents bus ids } := by
  intro ids
  induction ids with
  | nil => intro s; simp [Reader.checkReadSuccessful, Reader.checkEvents]
  | cons a rest ih =>
    intro s
    have ih2 := ih
    simp only [Reader.checkReadSuccessful] at ih2 ⊢
    rw [List.foldl_cons, ih2]
    by_cases hav : bus.isAvailable (toUint8 a) r.m_data_address r.m_data_byte_size = true
    · simp [Reader.checkEvents, hav]
    · simp [Reader.checkEvents, hav, List.append_assoc]

theorem populateOutputMatrix_eq (r : Reader) (bus : Bus) :
    ∀ (ids : List Int) (s : State),
      r.populateOutputMatrix bus ids s =
        { s with m_dataFromMotor := r.populateStore bus ids s.m_dataFromMotor,
                 log := s.log ++ r.populateEvents bus ids } := by
  intro ids
  induction ids with
  | nil => intro s; simp [Reader.populateOutputMatrix, Reader.populateStore, Reader.populateEvents]
  | cons a rest ih =>
    intro s
    have ih2 := ih
    simp only [Reader.populateOutputMatrix] at ih2 ⊢
    rw [List.foldl_cons, ih2]
    simp [Reader.populateOne, Reader.populateStore, Reader.populateEvents, Reader.decoded,
      List.append_assoc]

/-- The whole of `syncRead` when every registration succeeds. -/
theorem syncRead_of_succeed (r : Reader) (bus : Bus) (ids : List Int) (s : State)
    (h : r.registrationsSucceed bus ids [] = true) :
    r.syncRead bus ids s = Outcome.returned ()
      { s with
        m_dataFromMotor := r.populateStore bus ids s.m_dataFromMotor,
        id_list := ids.map r.param,
        log := s.log ++ Reader.transmitEvents bus (ids.map r.param) ++ r.checkEvents bus ids
          ++ r.populateEvents bus ids,
        txLog := s.txLog ++ [ids.map r.param] } := by
  unfold Reader.syncRead
  rw [addParams_of_succeed r bus ids (r.clearParam s) (by simpa [Reader.clearParam] using h)]
  simp only [populateOutputMatrix_eq, checkReadSuccessful_eq]
  by_cases hc : bus.txRxPacket (ids.map r.param) = COMM_SUCCESS
  · simp [Reader.transmit, Reader.transmitEvents, Reader.clearParam, hc]
  · simp [Reader.transmit, Reader.transmitEvents, Reader.clearParam, hc, List.append_assoc]


/-! ## The single reads, step by step -/

theorem singleRead_of_width (r : Reader) (bus : Bus) (i : Nat) (idsi : Int)
    (hw : r.m_data_byte_size = 1 ∨ r.m_data_byte_size = 2 ∨ r.m_data_byte_size = 4) :
    r.singleRead bus i idsi = some ((r.replyAt bus i idsi).comm, r.rawAt bus i idsi) := by
  unfold Reader.singleRead Reader.rawAt Reader.replyAt
  rcases hw with h | h | h <;> simp [h]

theorem singleRead_of_unknown (r : Reader) (bus : Bus) (i : Nat) (idsi : Int)
    (h1 : r.m_data_byte_size ≠ 1) (h2 : r.m_data_byte_size ≠ 2) (h4 : r.m_data_byte_size ≠ 4) :
    r.singleRead bus i idsi = none := by
  unfold Reader.singleRead
  simp [h1, h2, h4]

/-- One iteration of `read` whose single read succeeds. -/
theorem readLoop_cons_ok (r : Reader) (bus : Bus) (idsi : Int) (rest : List Int) (i : Nat)
    (output : List F32) (s : State)
    (hw : r.m_data_byte_size = 1 ∨ r.m_data_byte_size = 2 ∨ r.m_data_byte_size = 4)
    (hc : (r.replyAt bus i idsi).comm = COMM_SUCCESS) :
    r.readLoop bus (idsi :: rest) i output s =
      r.readLoop bus rest (i + 1)
        (output.set i (r.toSI (r.rawAt bus i idsi) idsi (r.m_hal.unit idsi r.m_field)).1)
        { s with
          busReads := s.busReads ++ [r.busRead idsi],
          log := s.log ++
            (r.toSI (r.rawAt bus i idsi) idsi (r.m_hal.unit idsi r.m_field)).2 } := by
  rw [Reader.readLoop]
  simp [singleRead_of_width r bus i idsi hw, hc, Reader.busRead]

/-- One iteration of `read` whose single read reports a communication failure. -/
theorem readLoop_cons_fail (r : Reader) (bus : Bus) (idsi : Int) (rest : List Int) (i : Nat)
    (output : List F32) (s : State)
    (hw : r.m_data_byte_size = 1 ∨ r.m_data_byte_size = 2 ∨ r.m_data_byte_size = 4)
    (hc : (r.replyAt bus i idsi).comm ≠ COMM_SUCCESS) :
    r.readLoop bus (idsi :: rest) i output s =
      Outcome.returned (0, output)
        { s with
          busReads := s.busReads ++ [r.busRead idsi],
          log := s.log ++ [Event.txRxResult (r.replyAt bus i idsi).comm] } := by
  rw [Reader.readLoop]
  simp [singleRead_of_width r bus i idsi hw, hc, Reader.busRead]

/-- The loop of `read` up to the first communication failure, at offset `k`. -/
theorem readLoop_first_failure (r : Reader) (bus : Bus)
    (hw : r.m_data_byte_size = 1 ∨ r.m_data_byte_size = 2 ∨ r.m_data_byte_size = 4) :
    ∀ (ids : List Int) (i : Nat) (output : List F32) (s : State) (k : Nat) (idk : Int),
      ids[k]? = some idk →
      (∀ j id, j < k → ids[j]? = some id → (r.replyAt bus (i + j) id).comm = COMM_SUCCESS) →
      (r.replyAt bus (i + k) idk).comm ≠ COMM_SUCCESS →
      ∃ out s1, r.readLoop bus ids i output s = Outcome.returned (0, out) s1 ∧
        out.length = output.length ∧
        (∀ j, i + k ≤ j → out[j]? = output[j]?) ∧
        s1.busReads = s.busReads ++ (ids.take (k + 1)).map r.busRead ∧
        s1.m_dataFromMotor = s.m_dataFromMotor := by
  intro ids
  induction ids with
  | nil => intro i output s k idk hk; simp at hk
  | cons a rest ih =>
    intro i output s k idk hk hok hfail
    cases k with
    | zero =>
      simp only [List.getElem?_cons_zero, Option.some.injEq] at hk
      subst hk
      rw [readLoop_cons_fail r bus a rest i output s hw (by simpa using hfail)]
      exact ⟨output, _, rfl, rfl, fun _ _ => rfl, by simp, rfl⟩
    | succ k =>
      simp only [List.getElem?_cons_succ] at hk
      have h0 : (r.replyAt bus i a).comm = COMM_SUCCESS := by
        have := hok 0 a (Nat.succ_pos k) (by simp)
        simpa using this
      rw [readLoop_cons_ok r bus a rest i output s hw h0]
      obtain ⟨out, s1, hrun, hlen, hkeep, hbus, hstore⟩ :=
        ih (i + 1) (output.set i (r.toSI (r.rawAt bus i a) a (r.m_hal.unit a r.m_field)).1)
          { s with
            busReads := s.busReads ++ [r.busRead a],
            log := s.log ++ (r.toSI (r.rawAt bus i a) a (r.m_hal.unit a r.m_field)).2 }
          k idk hk
          (fun j id hj hid => by
            have := hok (j + 1) id (Nat.succ_lt_succ hj) (by simpa using hid)
            rw [show i + 1 + j = i + (j + 1) by omega]
            exact this)
          (by rw [show i + 1 + k = i + (k + 1) by omega]; exact hfail)
      refine ⟨out, s1, hrun, ?_, ?_, ?_, hstore⟩
      · rw [hlen, List.length_set]
      · intro j hj
        rw [hkeep j (by omega), List.getElem?_set_ne (by omega)]
      · rw [hbus]
        simp [List.append_assoc]

theorem populateStore_length (r : Reader) (bus : Bus) :
    ∀ (ids : List Int) (store : List F32),
      (r.populateStore bus ids store).length = store.length := by
  intro ids
  induction ids with
  | nil => intro store; rfl
  | cons a rest ih => intro store; rw [Reader.populateStore, ih, List.length_set]

theorem registrationsSucceed_withTxRx (r : Reader) (bus : Bus) (code : Int) :
    ∀ (ids : List Int) (batch : List Param),
      r.registrationsSucceed (bus.withTxRx code) ids batch =
        r.registrationsSucceed bus ids batch := by
  intro ids
  induction ids with
  | nil => intro batch; rfl
  | cons a rest ih =>
    intro batch
    simp only [Reader.registrationsSucceed, ih]
    rfl

theorem checkEvents_withTxRx (r : Reader) (bus : Bus) (code : Int) :
    ∀ ids : List Int, r.checkEvents (bus.withTxRx code) ids = r.checkEvents bus ids := by
  intro ids
  induction ids with
  | nil => rfl
  | cons a rest ih =>
    simp only [Reader.checkEvents, ih]
    rfl

theorem populateStore_withTxRx (r : Reader) (bus : Bus) (code : Int) :
    ∀ (ids : List Int) (store : List F32),
      r.populateStore (bus.withTxRx code) ids store = r.populateStore bus ids store := by
  intro ids
  induction ids with
  | nil => intro store; rfl
  | cons a rest ih =>
    intro store
    simp only [Reader.populateStore, ih]
    rfl

theorem populateEvents_withTxRx (r : Reader) (bus : Bus) (code : Int) :
    ∀ ids : List Int, r.populateEvents (bus.withTxRx code) ids = r.populateEvents bus ids := by
  intro ids
  induction ids with
  | nil => rfl
  | cons a rest ih =>
    simp only [Reader.populateEvents, ih]
    rfl

/-! ## Sequences of batched reads -/

theorem syncReads_of_succeed (r : Reader) :
    ∀ (calls : List (Bus × List Int)) (s : State),
      (∀ c, c ∈ calls → r.registrationsSucceed c.1 c.2 [] = true) →
      ∃ s1, r.syncReads calls s = Outcome.returned () s1 ∧
        s1.txLog = s.txLog ++ calls.map (fun c => c.2.map r.param) := by
  intro calls
  induction calls with
  | nil => intro s _; exact ⟨s, rfl, by simp⟩
  | cons c rest ih =>
    intro s h
    rw [Reader.syncReads, syncRead_of_succeed r c.1 c.2 s (h c (List.mem_cons_self c rest))]
    obtain ⟨s1, hrun, hlog⟩ := ih
      { s with
        m_dataFromMotor := r.populateStore c.1 c.2 s.m_dataFromMotor,
        id_list := c.2.map r.param,
        log := s.log ++ Reader.transmitEvents c.1 (c.2.map r.param) ++ r.checkEvents c.1 c.2
          ++ r.populateEvents c.1 c.2,
        txLog := s.txLog ++ [c.2.map r.param] }
      (fun d hd => h d (List.mem_cons_of_mem c hd))
    exact ⟨s1, hrun, by rw [hlog]; simp [List.append_assoc]⟩

theorem toUint8_of_byte (i : Int) (h0 : 0 ≤ i) (h1 : i < 256) : toUint8 i = i.toNat := by
  unfold toUint8
  rw [Int.emod_eq_of_lt h0 h1]

/-! ## Claims on `read` -/

/-- C5: with a byte width of 1, 2 or 4, if the single read of index k is the first to
report a communication failure, read returns 0, every output slot of index j >= k is
unchanged, and the reads issued on the bus are those of the identities of index 0 to
k only. -/
theorem C5_read_first_failure (r : Reader) (bus : Bus) (ids : List Int) (output : List F32)
    (s : State) (k : Nat) (idk : Int)
    (hw : r.m_data_byte_size = 1 ∨ r.m_data_byte_size = 2 ∨ r.m_data_byte_size = 4)
    (hk : ids[k]? = some idk)
    (hok : ∀ j id, j < k → ids[j]? = some id → (r.replyAt bus j id).comm = COMM_SUCCESS)
    (hfail : (r.replyAt bus k idk).comm ≠ COMM_SUCCESS) :
    ∃ out s1, r.read bus ids output s = Outcome.returned (0, out) s1 ∧
      out.length = output.length ∧
      (∀ j, k ≤ j → out[j]? = output[j]?) ∧
      s1.busReads = s.busReads ++ (ids.take (k + 1)).map r.busRead := by
  obtain ⟨out, s1, hrun, hlen, hkeep, hbus, _⟩ :=
    readLoop_first_failure r bus hw ids 0 output s k idk hk
      (fun j id hj hid => by rw [Nat.zero_add]; exact hok j id hj hid)
      (by rw [Nat.zero_add]; exact hfail)
  exact ⟨out, s1, hrun, hlen, fun j hj => hkeep j (by omega), hbus⟩

/-- Witness of C5: three identities, the read of index 1 fails; the call returns 0,
the slots 1 and 2 keep the value 9 and two reads were issued. -/
theorem C5_read_first_failure_witness :
    ∃ out s1, (demoReader [1, 2, 3] (Fields.other 0) 2).read failingBus [1, 2, 3] [F32.ofInt 9, F32.ofInt 9, F32.ofInt 9]
        (initState []) = Outcome.returned (0, out) s1 ∧
      out.length = [F32.ofInt 9, F32.ofInt 9, F32.ofInt 9].length ∧
      (∀ j, 1 ≤ j → out[j]? = [F32.ofInt 9, F32.ofInt 9, F32.ofInt 9][j]?) ∧
      s1.busReads = (initState []).busReads ++
        (([1, 2, 3] : List Int).take (1 + 1)).map
          (demoReader [1, 2, 3] (Fields.other 0) 2).busRead :=
  C5_read_first_failure (demoReader [1, 2, 3] (Fields.other 0) 2) failingBus [1, 2, 3]
    [F32.ofInt 9, F32.ofInt 9, F32.ofInt 9] (initState []) 1 2 (Or.inr (Or.inl rfl)) rfl
    (fun j id hj _ => by
      have hj0 : j = 0 := by omega
      subst hj0
      rfl)
    (by decide)

/-- C9, as stated, fails on the empty identity list: with the byte width 3 the call
read([], output) returns the success flag 1 and the process is not terminated. -/
theorem C9_empty_list_refuted :
    (demoReader [1] (Fields.other 0) 3).read (constBus 150) [] [F32.ofInt 7]
        (initState []) =
      Outcome.returned (1, [F32.ofInt 7]) (initState []) := by
  rfl

/-- C9, amended: for every non-empty identity list, read on a Reader whose byte width
is not 1, 2 or 4 ends in exit(1) after printing the unknown byte size error, with no
bus read issued and no flag returned. -/
theorem C9_read_unknown_width (r : Reader) (bus : Bus) (ids : List Int) (output : List F32)
    (s : State) (h1 : r.m_data_byte_size ≠ 1) (h2 : r.m_data_byte_size ≠ 2)
    (h4 : r.m_data_byte_size ≠ 4) (hne : ids ≠ []) :
    ∃ s1, r.read bus ids output s = Outcome.exited 1 s1 ∧
      s1.busReads = s.busReads ∧
      s1.log = s.log ++ [Event.unknownByteSize] ∧
      (∀ flag out s2, r.read bus ids output s ≠ Outcome.returned (flag, out) s2) := by
  cases ids with
  | nil => exact absurd rfl hne
  | cons a rest =>
    have hrun : r.read bus (a :: rest) output s =
        Outcome.exited 1 { s with log := s.log ++ [Event.unknownByteSize] } := by
      rw [Reader.read, Reader.readLoop, singleRead_of_unknown r bus 0 a h1 h2 h4]
    refine ⟨_, hrun, rfl, rfl, ?_⟩
    intro flag out s2 h
    rw [hrun] at h
    exact Outcome.noConfusion h

/-- Witness of C9 amended: byte width 3 and one identity. -/
theorem C9_read_unknown_width_witness :
    ∃ s1, (demoReader [1] (Fields.other 0) 3).read (constBus 150) [1] [F32.ofInt 7]
        (initState []) =
        Outcome.exited 1 s1 ∧
      s1.busReads = (initState []).busReads ∧
      s1.log = (initState []).log ++ [Event.unknownByteSize] ∧
      (∀ flag out s2,
        (demoReader [1] (Fields.other 0) 3).read (constBus 150) [1] [F32.ofInt 7]
        (initState []) ≠
          Outcome.returned (flag, out) s2) :=
  C9_read_unknown_width (demoReader [1] (Fields.other 0) 3) (constBus 150) [1]
    [F32.ofInt 7] (initState []) (by decide) (by decide) (by decide) (by simp)

/-- C4, evaluated at a motor of unknown model (identity 4 has the model 999):
position2Angle prints its message and returns 1; read stores that 1 in the output and
returns the success flag 1; syncRead stores that 1 in the output store. -/
theorem C4_unknown_model_sentinel :
    (demoReader [4] Fields.PRESENT_POS 2).position2Angle 2048 4 f32_0_001 =
      (F32.ofInt 1, [Event.unknownModel]) ∧
    (∃ s1, (demoReader [4] Fields.PRESENT_POS 2).read (constBus 2048) [4] [F32.ofInt 0]
        (initState []) = Outcome.returned (1, [F32.ofInt 1]) s1 ∧
      s1.log = [Event.unknownModel]) ∧
    (∃ s1, (demoReader [4] Fields.PRESENT_POS 2).syncRead (constBus 2048) [4]
        (initState [F32.ofInt 0]) = Outcome.returned () s1 ∧
      s1.m_dataFromMotor = [F32.ofInt 1] ∧ s1.log = [Event.unknownModel]) := by
  have hp : ∀ p : Int, (demoReader [4] Fields.PRESENT_POS 2).position2Angle p 4 f32_0_001 =
      (F32.ofInt 1, [Event.unknownModel]) := by
    intro p
    simp [Reader.position2Angle, demoReader, demoHal]
  have hsi : ∀ raw : Nat, (demoReader [4] Fields.PRESENT_POS 2).toSI raw 4 f32_0_001 =
      (F32.ofInt 1, [Event.unknownModel]) := by
    intro raw
    rw [toSI_position _ (Or.inr (Or.inl rfl)), hp]
  have hunit : (demoReader [4] Fields.PRESENT_POS 2).m_hal.unit 4
      (demoReader [4] Fields.PRESENT_POS 2).m_field = f32_0_001 := by
    simp [demoReader, demoHal]
  refine ⟨hp 2048, ?_, ?_⟩
  · rw [Reader.read, readLoop_cons_ok (demoReader [4] Fields.PRESENT_POS 2) (constBus 2048) 4
      [] 0 [F32.ofInt 0] (initState []) (Or.inr (Or.inl rfl)) (by rfl), hunit, hsi]
    exact ⟨_, rfl, rfl⟩
  · rw [syncRead_of_succeed (demoReader [4] Fields.PRESENT_POS 2) (constBus 2048) [4]
      (initState [F32.ofInt 0]) (by rfl)]
    refine ⟨_, rfl, ?_, ?_⟩
    · simp only [Reader.populateStore, Reader.decoded, hunit, hsi]
      rfl
    · simp only [Reader.populateEvents, Reader.decoded, hunit, hsi]
      rfl

/-! ## Claims on the linear fields -/

/-- C6, evaluated where it fails: identity 1 has no available data after the
transaction (isAvailable is false), its slot held 5 before syncRead([1]) and holds
0 * unit = 0 after it: populateOutputMatrix writes the slot of every identity passed,
whatever checkReadSuccessful found. -/
theorem C6_unavailable_slot_overwritten :
    silentBus.isAvailable 1 36 2 = false ∧
    (initState [F32.ofInt 5]).m_dataFromMotor = [F32.ofInt 5] ∧
    ∃ s1, (demoReader [1] (Fields.other 0) 2).syncRead silentBus [1]
        (initState [F32.ofInt 5]) = Outcome.returned () s1 ∧
      s1.m_dataFromMotor = [F32.ofInt 0] ∧
      s1.log = [Event.txRxResult (-3001), Event.getdataFailed 1] := by
  refine ⟨rfl, rfl, ?_⟩
  rw [syncRead_of_succeed (demoReader [1] (Fields.other 0) 2) silentBus [1]
    (initState [F32.ofInt 5]) (by rfl)]
  refine ⟨_, rfl, ?_, ?_⟩
  · have hd : ((demoReader [1] (Fields.other 0) 2).decoded silentBus 1).1 = F32.ofInt 0 := by
      rw [Reader.decoded, toSI_linear _ (by decide)]
      decide
    simp only [Reader.populateStore, hd]
    rfl
  · have hd : ((demoReader [1] (Fields.other 0) 2).decoded silentBus 1).2 = [] := by
      rw [Reader.decoded, toSI_linear _ (by decide)]
    simp only [Reader.populateEvents, hd]
    rfl

/-- C7: in a sequence of syncRead calls in which every registration succeeds, the
batch transmitted by each call holds exactly the registrations of the identities of
that call, in list order, each with the address and byte width of the Reader, whatever the
batch held before; the registered identity is the uint8_t conversion made by the code,
which is the identity itself for the bus addresses 0 to 255. -/
theorem C7_syncRead_batches (r : Reader) (calls : List (Bus × List Int)) (s : State)
    (hreg : ∀ c, c ∈ calls → r.registrationsSucceed c.1 c.2 [] = true) :
    ∃ s1, r.syncReads calls s = Outcome.returned () s1 ∧
      s1.txLog = s.txLog ++ calls.map (fun c => c.2.map r.param) ∧
      ((∀ c, c ∈ calls → ∀ i, i ∈ c.2 → 0 ≤ i ∧ i < 256) →
        s1.txLog = s.txLog ++ calls.map (fun c => c.2.map
          (fun i => Param.mk i.toNat r.m_data_address r.m_data_byte_size))) := by
  obtain ⟨s1, hrun, hlog⟩ := syncReads_of_succeed r calls s hreg
  refine ⟨s1, hrun, hlog, ?_⟩
  intro hbyte
  rw [hlog]
  congr 1
  apply List.map_congr_left
  intro c hc
  apply List.map_congr_left
  intro i hi
  rw [Reader.param, toUint8_of_byte i (hbyte c hc i hi).1 (hbyte c hc i hi).2]

/-- Witness of C7: a call for the identities 1 and 2 followed by a call for the
identity 3, starting from a batch that still holds a stale registration. -/
theorem C7_syncRead_batches_witness :
    ∃ s1, (demoReader [1, 2, 3] (Fields.other 0) 2).syncReads
        [(constBus 150, [1, 2]), (constBus 150, [3])]
        { initState [F32.ofInt 0, F32.ofInt 0, F32.ofInt 0] with id_list := [⟨9, 36, 2⟩] } = Outcome.returned () s1 ∧
      s1.txLog = [] ++ ([(constBus 150, [1, 2]), (constBus 150, [3])] :
          List (Bus × List Int)).map
        (fun c => c.2.map (demoReader [1, 2, 3] (Fields.other 0) 2).param) ∧
      ((∀ c, c ∈ ([(constBus 150, [1, 2]), (constBus 150, [3])] : List (Bus × List Int)) →
          ∀ i, i ∈ c.2 → 0 ≤ i ∧ i < 256) →
        s1.txLog = [] ++ ([(constBus 150, [1, 2]), (constBus 150, [3])] :
            List (Bus × List Int)).map
          (fun c => c.2.map (fun i => Param.mk i.toNat 36 2))) :=
  C7_syncRead_batches (demoReader [1, 2, 3] (Fields.other 0) 2)
    [(constBus 150, [1, 2]), (constBus 150, [3])]
    { initState [F32.ofInt 0, F32.ofInt 0, F32.ofInt 0] with id_list := [⟨9, 36, 2⟩] }
    (fun c hc => by
      simp only [List.mem_cons, List.mem_singleton, List.not_mem_nil, or_false] at hc
      rcases hc with h | h <;> subst h <;> rfl)

/-- C8: when every registration succeeds, syncRead returns whatever the transaction
result is; with a failing result the availability check and the decoding run for every
identity exactly as with COMM_SUCCESS, the only difference being the logged result,
and the output store after the call is the same. -/
theorem C8_comm_failure_continues (r : Reader) (bus : Bus) (ids : List Int) (s : State)
    (code : Int) (hreg : r.registrationsSucceed bus ids [] = true)
    (hcode : code ≠ COMM_SUCCESS) :
    ∃ s1 s2, r.syncRead (bus.withTxRx code) ids s = Outcome.returned () s1 ∧
      r.syncRead (bus.withTxRx COMM_SUCCESS) ids s = Outcome.returned () s2 ∧
      s1.m_dataFromMotor = s2.m_dataFromMotor ∧
      s1.log = s.log ++ [Event.txRxResult code] ++ r.checkEvents bus ids
        ++ r.populateEvents bus ids ∧
      s2.log = s.log ++ r.checkEvents bus ids ++ r.populateEvents bus ids := by
  rw [syncRead_of_succeed r (bus.withTxRx code) ids s
      (by rw [registrationsSucceed_withTxRx]; exact hreg),
    syncRead_of_succeed r (bus.withTxRx COMM_SUCCESS) ids s
      (by rw [registrationsSucceed_withTxRx]; exact hreg)]
  refine ⟨_, _, rfl, rfl, ?_, ?_, ?_⟩
  · simp only [populateStore_withTxRx]
  · simp only [checkEvents_withTxRx, populateEvents_withTxRx]
    simp [Reader.transmitEvents, Bus.withTxRx, hcode]
  · simp only [checkEvents_withTxRx, populateEvents_withTxRx]
    simp [Reader.transmitEvents, Bus.withTxRx]

/-- Witness of C8: the transaction times out (-3001) on a bus that holds 150 for the
identities 1 and 2. -/
theorem C8_comm_failure_continues_witness :
    ∃ s1 s2, (demoReader [1, 2] (Fields.other 0) 2).syncRead ((constBus 150).withTxRx (-3001))
        [1, 2] (initState [F32.ofInt 0, F32.ofInt 0]) = Outcome.returned () s1 ∧
      (demoReader [1, 2] (Fields.other 0) 2).syncRead ((constBus 150).withTxRx COMM_SUCCESS)
        [1, 2] (initState [F32.ofInt 0, F32.ofInt 0]) = Outcome.returned () s2 ∧
      s1.m_dataFromMotor = s2.m_dataFromMotor ∧
      s1.log = (initState [F32.ofInt 0, F32.ofInt 0]).log ++ [Event.txRxResult (-3001)] ++
        (demoReader [1, 2] (Fields.other 0) 2).checkEvents (constBus 150) [1, 2] ++
        (demoReader [1, 2] (Fields.other 0) 2).populateEvents (constBus 150) [1, 2] ∧
      s2.log = (initState [F32.ofInt 0, F32.ofInt 0]).log ++
        (demoReader [1, 2] (Fields.other 0) 2).checkEvents (constBus 150) [1, 2] ++
        (demoReader [1, 2] (Fields.other 0) 2).populateEvents (constBus 150) [1, 2] :=
  C8_comm_failure_continues (demoReader [1, 2] (Fields.other 0) 2) (constBus 150) [1, 2]
    (initState [F32.ofInt 0, F32.ofInt 0]) (-3001) (by rfl) (by decide)

end KMR.dxlP1
